import Mathlib

/-!
Shallow embedding of `mobie/tables/default_table.py` (mobie-utils-python).

The module computes a per-object attribute table from a labeled segmentation:
a 2d path (`_compute_table_2d`, in-process via regionprops / eccentricity
centers) and a 3d path (`_table_impl` + `_n5_to_pandas`, delegating bulk
attribute computation to an external distributed morphology workflow), both
followed by `_remove_empty_columns` and a tab-separated write in
`compute_default_table`.

Modelling choices:
- machine floats become exact rationals (ℚ); numpy arrays become `List ℚ`
  rows; a 2d array is a `List (List ℚ)`.
- external collaborators (the chunked image store, skimage `regionprops`,
  vigra eccentricity centers, the distributed `MorphologyWorkflow`, luigi)
  are inputs: the loaded segmentation attributes, the per-object region
  properties, and the workflow success flag are parameters of the embedded
  functions.
- Python exceptions (assertion errors, numpy index errors, RuntimeError,
  NotImplementedError) become `Option`/`Except` failures.
- filesystem effects of `compute_default_table` (`os.makedirs`, `to_csv`)
  become an explicit event list; an aborted run produces the empty list.
-/

/-- `mapOption f l` applies the fallible `f` to every element, failing if any
application fails (the value-level behaviour of a numpy batch operation that
raises on any row). -/
def mapOption {α β : Type} (f : α → Option β) : List α → Option (List β)
  | [] => some []
  | x :: xs =>
    match f x, mapOption f xs with
    | some y, some ys => some (y :: ys)
    | _, _ => none

/-- `mulAt l d r` multiplies entry `d` of `l` by `r`; `none` when `d` is out of
range (numpy raises `IndexError` for `coords[:, d]` then). This is the
value-level effect of one loop iteration `coords[:, d] *= res_in_micron[d]`
in `translate_coordinate_tuple`, applied to one row. -/
def mulAt : List ℚ → Nat → ℚ → Option (List ℚ)
  | [], _, _ => none
  | x :: xs, 0, r => some ((x * r) :: xs)
  | x :: xs, Nat.succ d, r =>
    match mulAt xs d r with
    | some ys => some (x :: ys)
    | none => none

/-- Positional lookup `l[d]`, `none` when out of range (a numpy
`IndexError`). -/
def getAt : List ℚ → Nat → Option ℚ
  | [], _ => none
  | x :: _, 0 => some x
  | _ :: xs, Nat.succ d => getAt xs d

/-- One iteration of the scaling loop of `translate_coordinate_tuple` on one
(already reversed) coordinate row: look up `res_in_micron[d]` (`none` when the
reversed resolution is too short, as numpy raises) and scale entry `d`. -/
def translateStep (rim : List ℚ) (d : Nat) (rev : List ℚ) : Option (List ℚ) :=
  match getAt rim d with
  | none => none
  | some r => mulAt rev d r

/-- The body of `translate_coordinate_tuple` after the axis reversal
`coords = coords[:, ::-1]`, acting on one reversed row: the hard-coded loop
`for d in range(3)` scales entries 0, 1, 2 by the reversed resolution. -/
def translate_rev (rim : List ℚ) (rev : List ℚ) : Option (List ℚ) :=
  match translateStep rim 0 rev with
  | none => none
  | some c0 =>
    match translateStep rim 1 c0 with
    | none => none
    | some c1 => translateStep rim 2 c1

/-- `translate_coordinate_tuple` from `_n5_to_pandas`, value semantics for one
coordinate row: reverse the axis order, then scale entry `d` by
`res_in_micron[d] = resolution[::-1][d]` for `d = 0, 1, 2`. `none` models the
numpy `IndexError` raised when either the row or the resolution has fewer
than 3 entries. -/
def translate_coordinate_tuple (resolution : List ℚ) (row : List ℚ) : Option (List ℚ) :=
  translate_rev resolution.reverse row.reverse

/-- `translate_coordinate_tuple` applied to a whole coordinate batch
(one list entry per numpy row). -/
def translate_batch (resolution : List ℚ) (rows : List (List ℚ)) :
    Option (List (List ℚ)) :=
  mapOption (translate_coordinate_tuple resolution) rows

/-- In-place semantics of one loop iteration of `translate_coordinate_tuple`:
`coords[:, ::-1]` is a view of the caller's array, and `coords[:, d] *= r`
writes through that view, so entry `d` of the REVERSED row is scaled in the
underlying row. Returns the new contents of the underlying (un-reversed) row. -/
def mutStep (rim : List ℚ) (d : Nat) (row : List ℚ) : Option (List ℚ) :=
  match getAt rim d with
  | none => none
  | some r => Option.map List.reverse (mulAt row.reverse d r)

/-- `translate_coordinate_tuple` with its side effect made explicit: given the
resolution and the caller's coordinate row, returns
(contents of the caller's row after the call, value the function returns).
The returned value is the reversed view of the mutated storage. -/
def translate_coordinate_tuple_mut (resolution : List ℚ) (row : List ℚ) :
    Option (List ℚ × List ℚ) :=
  match mutStep resolution.reverse 0 row with
  | none => none
  | some m0 =>
    match mutStep resolution.reverse 1 m0 with
    | none => none
    | some m1 =>
      match mutStep resolution.reverse 2 m1 with
      | none => none
      | some m2 => some (m2, m2.reverse)

/-- Undo of the coordinate translation as the spec words it: reverse the axis
order of the translated row and divide each axis by its resolution value. -/
def untranslate_row (resolution : List ℚ) (row : List ℚ) : List ℚ :=
  List.zipWith (fun x r => x / r) row.reverse resolution

/-- Absolute tolerance of `np.isclose` with default parameters against 0:
`|a - 0| <= atol + rtol * |0| = 1e-8`. -/
def atol : ℚ := 1 / 100000000

/-- `np.isclose(anchors, 0.).all(axis=1)` for one supplied anchor row:
every coordinate is within `atol` of zero. -/
def invalid_anchor (ar : List ℚ) : Bool :=
  ar.all (fun x => decide (|x| ≤ atol))

/-- The center-of-mass slice `attributes[:, 2:5]` of one raw attribute row. -/
def comSlice (r : List ℚ) : List ℚ :=
  (r.drop 2).take 3

/-- The anchor merge of `_n5_to_pandas` for one row: with no supplied anchors
the raw center of mass is used; with supplied anchors, an all-near-zero anchor
row is replaced by the (untranslated) center of mass
(`anchors[invalid_anchors] = com[invalid_anchors]`), any other anchor row is
kept. -/
def merged_anchor (r : List ℚ) (a : Option (List ℚ)) : List ℚ :=
  match a with
  | none => comSlice r
  | some ar => if invalid_anchor ar then comSlice r else ar

/-- Assembly of one output row of `_n5_to_pandas` from one raw attribute row
`r` (label at 0, pixel count at 1, com at 2:5, bbox min at 5:8, bbox max at
8:11) and the merged (still untranslated) anchor: translate the anchor, the
bbox min and the bbox max, and concatenate
`[label_id] ++ anchor ++ bb_min ++ bb_max ++ [n_pixels]`. -/
def n5_row (resolution : List ℚ) (anchor : List ℚ) (r : List ℚ) : Option (List ℚ) :=
  match translate_coordinate_tuple resolution anchor with
  | none => none
  | some anch =>
    match translate_coordinate_tuple resolution ((r.drop 5).take 3) with
    | none => none
    | some minc =>
      match translate_coordinate_tuple resolution ((r.drop 8).take 3) with
      | none => none
      | some maxc => some (r.take 1 ++ anch ++ minc ++ maxc ++ (r.drop 1).take 1)

/-- Column names of the 3d table, from `_n5_to_pandas`. -/
def col_names_3d : List String :=
  ["label_id",
   "anchor_x", "anchor_y", "anchor_z",
   "bb_min_x", "bb_min_y", "bb_min_z",
   "bb_max_x", "bb_max_y", "bb_max_z",
   "n_pixels"]

/-- Column names of the 2d table, from `_compute_table_2d`. -/
def col_names_2d : List String :=
  ["label_id", "anchor_y", "anchor_x",
   "bb_min_y", "bb_min_x", "bb_max_y", "bb_max_x", "n_pixels"]

/-- A pandas DataFrame with named columns: the column names and the numeric
rows. -/
structure DTable where
  cols : List String
  rows : List (List ℚ)
  deriving DecidableEq

/-- Modelled from the spec: `remove_background_label_row` is imported from
`mobie.tables.utils`, which is not among the sources; per the spec it drops
the row corresponding to the background label (label 0) if present. Column
`label_id` is looked up by name, as pandas does. -/
def remove_background_label_row (t : DTable) : DTable :=
  { cols := t.cols,
    rows := t.rows.filter
      (fun r => decide (r.getD (t.cols.findIdx (fun c => c == "label_id")) 0 ≠ 0)) }

/-- `_n5_to_pandas`: build the 3d table from the raw attribute rows loaded
from the temporary n5 store and the optional supplied anchors. With supplied
anchors the two assertions `len(anchors) == len(com)` and
`anchors.shape[1] == 3` are checked first (`none` models the assertion
error); each anchor row all-near-zero is replaced by its center of mass
before translation. Finally the background label row is dropped. -/
def _n5_to_pandas (resolution : List ℚ) (attributes : List (List ℚ))
    (anchors : Option (List (List ℚ))) : Option DTable :=
  match anchors with
  | none =>
    match mapOption (fun r => n5_row resolution (merged_anchor r none) r) attributes with
    | none => none
    | some rows => some (remove_background_label_row ⟨col_names_3d, rows⟩)
  | some a =>
    if a.length = attributes.length ∧ ∀ ar ∈ a, ar.length = 3 then
      match mapOption (fun p => n5_row resolution (merged_anchor p.1 (some p.2)) p.1)
          (attributes.zip a) with
      | none => none
      | some rows => some (remove_background_label_row ⟨col_names_3d, rows⟩)
    else none

/-- One object record of skimage `regionprops` plus its vigra eccentricity
center, the external collaborators of `_compute_table_2d`: the label, the
anchor center `centers[p.label]` (native y, x order), the bounding box
`p.bbox` (min_y, min_x, max_y, max_x) and the pixel count `p.area`. -/
structure RegionProps2D where
  label : ℚ
  center : List ℚ
  bbox : List ℚ
  area : ℚ
  deriving DecidableEq

/-- One row built by the list comprehension of `_compute_table_2d`:
`[p.label] + [ce * res ...] + [bb * res for bbox[:2]] + [bb * res for
bbox[2:]] + [p.area]`. Python `zip` stops at the shorter sequence, exactly
like `List.zipWith`. -/
def row2d (resolution : List ℚ) (p : RegionProps2D) : List ℚ :=
  [p.label]
    ++ List.zipWith (fun ce r => ce * r) p.center resolution
    ++ List.zipWith (fun bb r => bb * r) (p.bbox.take 2) resolution
    ++ List.zipWith (fun bb r => bb * r) (p.bbox.drop 2) resolution
    ++ [p.area]

/-- `_compute_table_2d`: single-pass 2d table from the loaded region
properties. `none` models the failing assertions: `len(resolution) ==
seg.ndim == ndim` (resolution must have length 2) and `tab.shape[1] ==
len(col_names)` (each built row must have width 8; an empty property list
yields a shapeless `np.array([])`, whose `shape[1]` access raises). -/
def _compute_table_2d (resolution : List ℚ) (props : List RegionProps2D) :
    Option DTable :=
  if resolution.length = 2 then
    match props.map (row2d resolution) with
    | [] => none
    | row :: rows =>
      if (row :: rows).all (fun r => r.length == 8) then
        some ⟨col_names_2d, row :: rows⟩
      else none
  else none

/-- The parameters `_table_impl` passes to the distributed
`MorphologyWorkflow` task that the claims are about: the overall parallelism
and the merge-step parallelism `max_jobs_merge=min(32, max_jobs)`. -/
structure WorkflowCall where
  max_jobs : Nat
  max_jobs_merge : Nat
  deriving DecidableEq

/-- The `MorphologyWorkflow` task as constructed by `_table_impl`. -/
def _table_impl_task (max_jobs : Nat) : WorkflowCall :=
  { max_jobs := max_jobs, max_jobs_merge := min 32 max_jobs }

/-- The failure modes of the pipeline: `workflowFailed` is the
`RuntimeError("Attribute workflow failed")`, `notImplemented` the
`NotImplementedError` of the anchor-correction stub, `indexError` a numpy
index error inside `_n5_to_pandas`, `assertionFailed` a failing `assert`. -/
inductive PipeErr where
  | workflowFailed
  | notImplemented
  | indexError
  | assertionFailed
  deriving DecidableEq

/-- `_table_impl`: build the workflow task and run it via luigi; the luigi
outcome is the input flag `workflowOk` (the external engine is a black box).
A non-success return raises `RuntimeError("Attribute workflow failed")`. -/
def _table_impl (max_jobs : Nat) (workflowOk : Bool) : Except PipeErr WorkflowCall :=
  if workflowOk then Except.ok (_table_impl_task max_jobs) else Except.error PipeErr.workflowFailed

/-- `_compute_table_3d`: run the distributed workflow (`_table_impl`), then —
only if that succeeded — either raise `NotImplementedError` when
`correct_anchors` is requested, or convert the raw attributes with
`_n5_to_pandas` and `anchors = None`. The raw attribute rows stand for the
contents of the temporary n5 store written by the workflow. -/
def _compute_table_3d (resolution : List ℚ) (correct_anchors : Bool)
    (workflowOk : Bool) (attributes : List (List ℚ)) (max_jobs : Nat) :
    Except PipeErr DTable :=
  match _table_impl max_jobs workflowOk with
  | Except.error e => Except.error e
  | Except.ok _ =>
    if correct_anchors then Except.error PipeErr.notImplemented
    else
      match _n5_to_pandas resolution attributes none with
      | some t => Except.ok t
      | none => Except.error PipeErr.indexError

/-- The dispatch of `compute_default_table`: `ndim == 2` routes to the 2d
extractor, anything else to the 3d extractor. -/
def extract_table (ndim : Nat) (resolution : List ℚ) (props : List RegionProps2D)
    (attributes : List (List ℚ)) (correct_anchors workflowOk : Bool)
    (max_jobs : Nat) : Except PipeErr DTable :=
  if ndim = 2 then
    match _compute_table_2d resolution props with
    | some t => Except.ok t
    | none => Except.error PipeErr.assertionFailed
  else
    _compute_table_3d resolution correct_anchors workflowOk attributes max_jobs

/-- `_remove_empty_columns`: `table[table.n_pixels != 0]`, i.e. keep exactly
the rows whose `n_pixels` entry (column looked up by name) is nonzero. -/
def _remove_empty_columns (t : DTable) : DTable :=
  { cols := t.cols,
    rows := t.rows.filter
      (fun r => decide (r.getD (t.cols.findIdx (fun c => c == "n_pixels")) 0 ≠ 0)) }

/-- The tab separator passed to `to_csv` as `sep="\t"`. -/
def tabChar : String := "\t"

/-- The literal passed to `to_csv` as `na_rep="nan"`. -/
def nanToken : String := "nan"

/-- Rendering of one cell by `to_csv`: a missing value (NaN) becomes the
`na_rep` literal, a number its decimal text. -/
def render_cell (c : Option ℚ) : String :=
  match c with
  | none => nanToken
  | some q => toString q

/-- The lines of the file written by
`to_csv(path, sep="\t", index=False, na_rep="nan")`: the header row first
(the column names joined by tabs), then one line per row holding exactly the
row's rendered cells joined by tabs — no row-index column. -/
def to_csv_lines (cols : List String) (rows : List (List (Option ℚ))) : List String :=
  String.intercalate tabChar cols ::
    rows.map (fun r => String.intercalate tabChar (r.map render_cell))

/-- A filesystem effect of `compute_default_table`: the
`os.makedirs(table_folder, exist_ok=True)` call (recursive by nature, with
its `exist_ok` flag) on the output table's directory, or the write of the
output table file with the given lines. -/
inductive FsEvent where
  | makedirs (recursive existOk : Bool)
  | writeCsv (lines : List String)
  deriving DecidableEq

/-- `compute_default_table`: dispatch on the dimensionality, filter with
`_remove_empty_columns`, then create the destination directory and write the
tab-separated table. The first component lists the filesystem effects on the
output table path in order; a raised exception (the `Except.error` case)
propagates before any of them happens. -/
def compute_default_table (ndim : Nat) (resolution : List ℚ)
    (props : List RegionProps2D) (attributes : List (List ℚ))
    (correct_anchors workflowOk : Bool) (max_jobs : Nat) :
    List FsEvent × Except PipeErr Unit :=
  match extract_table ndim resolution props attributes correct_anchors workflowOk max_jobs with
  | Except.error e => ([], Except.error e)
  | Except.ok tab =>
    let tab2 := _remove_empty_columns tab
    ([FsEvent.makedirs true true,
      FsEvent.writeCsv (to_csv_lines tab2.cols (tab2.rows.map (fun r => r.map some)))],
     Except.ok ())

/-- The label cell of a table row (`label_id` is column 0 on both paths). -/
def labelOf (r : List ℚ) : ℚ := r.getD 0 0

/-- What the translator actually computes when both the batch width and the
resolution length are at least 3: only the first three entries of the
reversed row are scaled (by the first three entries of the reversed
resolution); entries beyond the third are left unscaled. -/
def scale3 (rim rev : List ℚ) : List ℚ :=
  List.zipWith (fun x r => x * r) (rev.take 3) (rim.take 3) ++ rev.drop 3

/-! ### Helper lemmas -/

theorem mapOption_eq_some {α β : Type} {f : α → Option β} :
    ∀ {l : List α} {l' : List β}, mapOption f l = some l' →
      List.Forall₂ (fun a b => f a = some b) l l' := by
  intro l
  induction l with
  | nil =>
    intro l' h
    simp only [mapOption, Option.some.injEq] at h
    subst h
    exact List.Forall₂.nil
  | cons x xs ih =>
    intro l' h
    simp only [mapOption] at h
    cases hx : f x with
    | none => rw [hx] at h; simp at h
    | some y =>
      cases hxs : mapOption f xs with
      | none => rw [hx, hxs] at h; simp at h
      | some ys =>
        rw [hx, hxs] at h
        simp only [Option.some.injEq] at h
        subst h
        exact List.Forall₂.cons hx (ih hxs)

theorem forall₂_map_eq {α β γ : Type} {R : α → β → Prop} {f : α → γ} {g : β → γ} :
    ∀ {l : List α} {l' : List β}, List.Forall₂ R l l' →
      (∀ a ∈ l, ∀ b, R a b → g b = f a) → l'.map g = l.map f := by
  intro l l' h
  induction h with
  | nil => intro _; rfl
  | cons hr _ ih =>
    intro hfg
    simp only [List.map_cons]
    rw [hfg _ (by simp) _ hr, ih (fun a ha b hb => hfg a (by simp [ha]) b hb)]

theorem exists_three_cons (l : List ℚ) (h : 3 ≤ l.length) :
    ∃ a b c t, l = a :: b :: c :: t := by
  rcases l with _ | ⟨a, _ | ⟨b, _ | ⟨c, t⟩⟩⟩
  · simp at h
  · simp at h
  · simp at h
  · exact ⟨a, b, c, t, rfl⟩

theorem translate_rev_cons3 (u0 u1 u2 y0 y1 y2 : ℚ) (urest yrest : List ℚ) :
    translate_rev (u0 :: u1 :: u2 :: urest) (y0 :: y1 :: y2 :: yrest) =
      some (y0 * u0 :: y1 * u1 :: y2 * u2 :: yrest) := rfl

theorem translate_rev_short (rim rev : List ℚ)
    (h : rev.length < 3 ∨ rim.length < 3) :
    translate_rev rim rev = none := by
  rcases rim with _ | ⟨u0, _ | ⟨u1, _ | ⟨u2, urest⟩⟩⟩ <;>
    rcases rev with _ | ⟨y0, _ | ⟨y1, _ | ⟨y2, yrest⟩⟩⟩ <;>
      first
        | rfl
        | (exfalso; simp only [List.length_cons] at h; omega)

theorem translate_row3 (r0 r1 r2 x0 x1 x2 : ℚ) :
    translate_coordinate_tuple [r0, r1, r2] [x0, x1, x2] =
      some [x2 * r2, x1 * r1, x0 * r0] := rfl

theorem untranslate_translate_row (r0 r1 r2 x0 x1 x2 : ℚ)
    (h0 : r0 ≠ 0) (h1 : r1 ≠ 0) (h2 : r2 ≠ 0) :
    untranslate_row [r0, r1, r2] [x2 * r2, x1 * r1, x0 * r0] = [x0, x1, x2] := by
  simp only [untranslate_row, List.reverse_cons, List.reverse_nil, List.nil_append,
    List.cons_append, List.zipWith_cons_cons, List.zipWith_nil_right]
  rw [mul_div_cancel_right₀ x0 h0, mul_div_cancel_right₀ x1 h1, mul_div_cancel_right₀ x2 h2]

/-! ### Claim theorems -/

/-- C1: the output column names and their order are fixed per path. Whenever
the 2d extractor produces a table its columns are exactly
[label_id, anchor_y, anchor_x, bb_min_y, bb_min_x, bb_max_y, bb_max_x,
n_pixels] (native y, x order), and whenever the 3d conversion produces a
table its columns are exactly [label_id, anchor_x, anchor_y, anchor_z,
bb_min_x, bb_min_y, bb_min_z, bb_max_x, bb_max_y, bb_max_z, n_pixels]
(reversed x, y, z order), for every input on the respective path. -/
theorem c1_column_names (res2 res3 : List ℚ) (props : List RegionProps2D)
    (attributes : List (List ℚ)) (anchors : Option (List (List ℚ)))
    (t2 t3 : DTable)
    (h2 : _compute_table_2d res2 props = some t2)
    (h3 : _n5_to_pandas res3 attributes anchors = some t3) :
    t2.cols = ["label_id", "anchor_y", "anchor_x",
               "bb_min_y", "bb_min_x", "bb_max_y", "bb_max_x", "n_pixels"] ∧
    t3.cols = ["label_id",
               "anchor_x", "anchor_y", "anchor_z",
               "bb_min_x", "bb_min_y", "bb_min_z",
               "bb_max_x", "bb_max_y", "bb_max_z",
               "n_pixels"] := by
  constructor
  · unfold _compute_table_2d at h2
    split at h2
    · split at h2
      · simp at h2
      · split at h2
        · simp only [Option.some.injEq] at h2
          subst h2
          rfl
        · simp at h2
    · simp at h2
  · unfold _n5_to_pandas at h3
    split at h3
    · split at h3
      · simp at h3
      · simp only [Option.some.injEq] at h3
        subst h3
        rfl
    · split at h3
      · split at h3
        · simp at h3
        · simp only [Option.some.injEq] at h3
          subst h3
          rfl
      · simp at h3

theorem c1_column_names_witness :
    ∃ t2 t3 : DTable,
      _compute_table_2d [1, 1] [⟨1, [0, 0], [0, 0, 4, 4], 16⟩] = some t2 ∧
      _n5_to_pandas [1, 1, 1] [[1, 5, 0, 0, 0, 0, 0, 0, 1, 1, 1]] none = some t3 ∧
      t2.cols = ["label_id", "anchor_y", "anchor_x",
                 "bb_min_y", "bb_min_x", "bb_max_y", "bb_max_x", "n_pixels"] ∧
      t3.cols = ["label_id",
                 "anchor_x", "anchor_y", "anchor_z",
                 "bb_min_x", "bb_min_y", "bb_min_z",
                 "bb_max_x", "bb_max_y", "bb_max_z",
                 "n_pixels"] := by
  have h2 : _compute_table_2d [1, 1] [⟨1, [0, 0], [0, 0, 4, 4], 16⟩] =
      some ⟨col_names_2d, [[1, 0 * 1, 0 * 1, 0 * 1, 0 * 1, 4 * 1, 4 * 1, 16]]⟩ := by
    norm_num [_compute_table_2d, row2d, col_names_2d]
  have h3 : _n5_to_pandas [1, 1, 1] [[1, 5, 0, 0, 0, 0, 0, 0, 1, 1, 1]] none =
      some ⟨col_names_3d,
        [[1, 0 * 1, 0 * 1, 0 * 1, 0 * 1, 0 * 1, 0 * 1, 1 * 1, 1 * 1, 1 * 1, 5]]⟩ := by
    norm_num [_n5_to_pandas, mapOption, n5_row, merged_anchor, comSlice,
      translate_coordinate_tuple, translate_rev, translateStep, getAt, mulAt,
      remove_background_label_row, col_names_3d, List.findIdx_cons, List.getD]
  exact ⟨_, _, h2, h3,
    (c1_column_names [1, 1] [1, 1, 1] _ _ none _ _ h2 h3).1,
    (c1_column_names [1, 1] [1, 1, 1] _ _ none _ _ h2 h3).2⟩

/-- C2: coordinate round-trip. For every batch of 3-wide coordinate rows and
every 3-long resolution vector of positive values, the coordinate translation
succeeds, and reversing the axis order of each translated row and dividing
each axis by its resolution value recovers the original native pixel
coordinates exactly (over exact rational arithmetic). -/
theorem c2_roundtrip (resolution : List ℚ) (rows : List (List ℚ))
    (hres : resolution.length = 3) (hpos : ∀ r ∈ resolution, 0 < r)
    (hrows : ∀ row ∈ rows, row.length = 3) :
    ∃ outs, translate_batch resolution rows = some outs ∧
      outs.map (untranslate_row resolution) = rows := by
  obtain ⟨r0, r1, r2, rfl⟩ := List.length_eq_three.mp hres
  have h0 : r0 ≠ 0 := ne_of_gt (hpos r0 (by simp))
  have h1 : r1 ≠ 0 := ne_of_gt (hpos r1 (by simp))
  have h2 : r2 ≠ 0 := ne_of_gt (hpos r2 (by simp))
  induction rows with
  | nil => exact ⟨[], rfl, rfl⟩
  | cons row rest ih =>
    obtain ⟨x0, x1, x2, rfl⟩ := List.length_eq_three.mp (hrows row (by simp))
    obtain ⟨outs, hmap, hback⟩ := ih (fun r hr => hrows r (by simp [hr]))
    refine ⟨[x2 * r2, x1 * r1, x0 * r0] :: outs, ?_, ?_⟩
    · simp only [translate_batch, mapOption] at hmap ⊢
      rw [translate_row3, hmap]
    · simp only [List.map_cons, hback,
        untranslate_translate_row r0 r1 r2 x0 x1 x2 h0 h1 h2]

theorem c2_roundtrip_witness :
    ∃ outs, translate_batch [1, 2, 4] [[3, 5, 7]] = some outs ∧
      outs.map (untranslate_row [1, 2, 4]) = [[3, 5, 7]] :=
  c2_roundtrip [1, 2, 4] [[3, 5, 7]] (by decide) (by norm_num)
    (by intro row hr; simp at hr; subst hr; decide)

/-- C10: implicit merge-parallelism limit. The distributed morphology
workflow task built by `_table_impl` is invoked with its merge-step
parallelism set to min(32, max_jobs): it never exceeds 32 however large the
caller's max_jobs is, and it equals max_jobs whenever max_jobs is at most
32. -/
theorem c10_merge_jobs (max_jobs : Nat) (workflowOk : Bool) :
    (_table_impl_task max_jobs).max_jobs_merge = min 32 max_jobs ∧
    (_table_impl_task max_jobs).max_jobs_merge ≤ 32 ∧
    (max_jobs ≤ 32 → (_table_impl_task max_jobs).max_jobs_merge = max_jobs) ∧
    (workflowOk = true →
      _table_impl max_jobs workflowOk = Except.ok (_table_impl_task max_jobs)) := by
  refine ⟨rfl, Nat.min_le_left 32 max_jobs, fun h => ?_, fun h => ?_⟩
  · simp [_table_impl_task, Nat.min_eq_right h]
  · simp [_table_impl, h]

theorem c10_merge_jobs_witness :
    (_table_impl_task 100).max_jobs_merge ≤ 32 ∧
    (_table_impl_task 7).max_jobs_merge = 7 ∧
    _table_impl 100 true = Except.ok (_table_impl_task 100) :=
  ⟨(c10_merge_jobs 100 true).2.1,
   (c10_merge_jobs 7 true).2.2.1 (by decide),
   (c10_merge_jobs 100 true).2.2.2 rfl⟩

/-- C4: anchor correction is an explicit fail-fast stub. For every 3d
extraction invoked with correct_anchors = true the extraction fails (for
every attribute content, i.e. before any anchor computation or table
assembly can matter), with the explicit not-implemented error whenever the
preceding workflow run succeeded; and no output table file is written and
the destination path is never created (the pipeline's filesystem event list
is empty and the run does not succeed). -/
theorem c4_anchor_correction_not_implemented (resolution : List ℚ)
    (props : List RegionProps2D) (attributes : List (List ℚ)) (max_jobs : Nat)
    (workflowOk : Bool) :
    (∃ e, _compute_table_3d resolution true workflowOk attributes max_jobs =
      Except.error e) ∧
    (workflowOk = true →
      _compute_table_3d resolution true workflowOk attributes max_jobs =
        Except.error PipeErr.notImplemented) ∧
    (compute_default_table 3 resolution props attributes true workflowOk max_jobs).1 = [] ∧
    (compute_default_table 3 resolution props attributes true workflowOk max_jobs).2 ≠
      Except.ok () := by
  cases workflowOk <;>
    simp [compute_default_table, extract_table, _compute_table_3d, _table_impl]

theorem c4_anchor_correction_not_implemented_witness :
    _compute_table_3d [1, 1, 1] true true [[1, 5, 0, 0, 0, 0, 0, 0, 1, 1, 1]] 4 =
      Except.error PipeErr.notImplemented ∧
    (compute_default_table 3 [1, 1, 1] [] [[1, 5, 0, 0, 0, 0, 0, 0, 1, 1, 1]] true true 4).1 =
      [] :=
  ⟨(c4_anchor_correction_not_implemented [1, 1, 1] [] [[1, 5, 0, 0, 0, 0, 0, 0, 1, 1, 1]] 4
      true).2.1 rfl,
   (c4_anchor_correction_not_implemented [1, 1, 1] [] [[1, 5, 0, 0, 0, 0, 0, 0, 1, 1, 1]] 4
      true).2.2.1⟩

/-- C5: a failing distributed morphology workflow is fatal. For every 3d
input (and whatever the anchor-correction flag), a non-success workflow
return makes `_compute_table_3d` raise the workflow-failure error, and
`compute_default_table` aborts with that error before any filesystem effect:
its event list is empty, so no output table file — partial or otherwise —
is produced and the destination directory is never created. -/
theorem c5_workflow_failure_aborts (resolution : List ℚ)
    (props : List RegionProps2D) (attributes : List (List ℚ))
    (correct_anchors : Bool) (max_jobs : Nat) :
    _compute_table_3d resolution correct_anchors false attributes max_jobs =
      Except.error PipeErr.workflowFailed ∧
    compute_default_table 3 resolution props attributes correct_anchors false max_jobs =
      ([], Except.error PipeErr.workflowFailed) := by
  simp [compute_default_table, extract_table, _compute_table_3d, _table_impl]

/-- C9: table assembly and serialization. Whenever extraction succeeds with
candidate table `tab`, the pipeline performs exactly two filesystem effects
in order: it creates the destination directory (recursively, tolerating an
existing one), then writes the table file whose first line is the header
(the column names joined by tabs) followed by one line per surviving row —
the rows whose `n_pixels` cell is not exactly 0 — each line holding exactly
the row's rendered cells joined by tabs (no row-index column); a missing
value renders as the literal token "nan". -/
theorem c9_table_assembly (ndim : Nat) (resolution : List ℚ)
    (props : List RegionProps2D) (attributes : List (List ℚ))
    (correct_anchors workflowOk : Bool) (max_jobs : Nat) (tab : DTable)
    (h : extract_table ndim resolution props attributes correct_anchors workflowOk max_jobs =
      Except.ok tab) :
    compute_default_table ndim resolution props attributes correct_anchors workflowOk
        max_jobs =
      ([FsEvent.makedirs true true,
        FsEvent.writeCsv (String.intercalate tabChar tab.cols ::
          (tab.rows.filter
            (fun r => decide
              (r.getD (tab.cols.findIdx (fun c => c == "n_pixels")) 0 ≠ 0))).map
            (fun r => String.intercalate tabChar (r.map (fun q => render_cell (some q)))))],
       Except.ok ()) ∧
    render_cell none = nanToken := by
  constructor
  · simp only [compute_default_table, h, _remove_empty_columns, to_csv_lines,
      Function.comp_def, List.map_map]
  · rfl

theorem c9_table_assembly_witness :
    compute_default_table 2 [1, 1] [⟨1, [0, 0], [0, 0, 4, 4], 16⟩] [] false true 4 =
      ([FsEvent.makedirs true true,
        FsEvent.writeCsv (String.intercalate tabChar
            (DTable.mk col_names_2d [[1, 0, 0, 0, 0, 4, 4, 16]]).cols ::
          ((DTable.mk col_names_2d [[1, 0, 0, 0, 0, 4, 4, 16]]).rows.filter
            (fun r => decide
              (r.getD ((DTable.mk col_names_2d [[1, 0, 0, 0, 0, 4, 4, 16]]).cols.findIdx
                (fun c => c == "n_pixels")) 0 ≠ 0))).map
            (fun r => String.intercalate tabChar (r.map (fun q => render_cell (some q)))))],
       Except.ok ()) ∧
    render_cell none = nanToken :=
  c9_table_assembly 2 [1, 1] [⟨1, [0, 0], [0, 0, 4, 4], 16⟩] [] false true 4
    (DTable.mk col_names_2d [[1, 0, 0, 0, 0, 4, 4, 16]])
    (by norm_num [extract_table, _compute_table_2d, row2d, col_names_2d])

/-- C6: anchor-merge policy. A supplied anchor row counts as invalid exactly
when all its coordinates are numerically indistinguishable from zero
(within the `np.isclose` tolerance); for such a row the (untranslated)
center-of-mass slice is substituted before translation, so the assembled
output row is the same as if the center of mass had been the anchor; a row
with at least one non-near-zero coordinate keeps its supplied anchor. -/
theorem c6_anchor_merge (resolution : List ℚ) (r ar : List ℚ) :
    (invalid_anchor ar = true ↔ ∀ x ∈ ar, |x| ≤ atol) ∧
    (invalid_anchor ar = true →
      merged_anchor r (some ar) = comSlice r ∧
      n5_row resolution (merged_anchor r (some ar)) r =
        n5_row resolution (comSlice r) r) ∧
    (invalid_anchor ar = false → merged_anchor r (some ar) = ar) := by
  refine ⟨?_, fun hI => ?_, fun hV => ?_⟩
  · simp [invalid_anchor]
  · simp [merged_anchor, hI]
  · simp [merged_anchor, hV]

theorem c6_anchor_merge_witness :
    (invalid_anchor [0, 0, 0] = true ↔ ∀ x ∈ ([0, 0, 0] : List ℚ), |x| ≤ atol) ∧
    merged_anchor [7, 9, 1, 2, 3, 0, 0, 0, 1, 1, 1] (some [0, 0, 0]) =
      comSlice [7, 9, 1, 2, 3, 0, 0, 0, 1, 1, 1] ∧
    n5_row [1, 1, 1] (merged_anchor [7, 9, 1, 2, 3, 0, 0, 0, 1, 1, 1] (some [0, 0, 0]))
        [7, 9, 1, 2, 3, 0, 0, 0, 1, 1, 1] =
      n5_row [1, 1, 1] (comSlice [7, 9, 1, 2, 3, 0, 0, 0, 1, 1, 1])
        [7, 9, 1, 2, 3, 0, 0, 0, 1, 1, 1] ∧
    merged_anchor [7, 9, 1, 2, 3, 0, 0, 0, 1, 1, 1] (some [1, 0, 0]) = [1, 0, 0] := by
  have hI : invalid_anchor [0, 0, 0] = true := by norm_num [invalid_anchor, atol]
  have hV : invalid_anchor [1, 0, 0] = false := by norm_num [invalid_anchor, atol]
  exact ⟨(c6_anchor_merge [1, 1, 1] [7, 9, 1, 2, 3, 0, 0, 0, 1, 1, 1] [0, 0, 0]).1,
    ((c6_anchor_merge [1, 1, 1] [7, 9, 1, 2, 3, 0, 0, 0, 1, 1, 1] [0, 0, 0]).2.1 hI).1,
    ((c6_anchor_merge [1, 1, 1] [7, 9, 1, 2, 3, 0, 0, 0, 1, 1, 1] [0, 0, 0]).2.1 hI).2,
    (c6_anchor_merge [1, 1, 1] [7, 9, 1, 2, 3, 0, 0, 0, 1, 1, 1] [1, 0, 0]).2.2 hV⟩

/-- C7 counterexample: the coordinate translator is NOT free of side effects
on its input. `coords[:, ::-1]` is a view and the in-place `*=` writes
through it, so the caller's batch is mutated: translating the row [1, 1, 1]
with resolution [2, 1, 1] leaves the caller's row as [2, 1, 1] ≠ [1, 1, 1]
(while returning [1, 1, 2]). -/
theorem c7_counterexample :
    translate_coordinate_tuple_mut [2, 1, 1] [1, 1, 1] = some ([2, 1, 1], [1, 1, 2]) ∧
    ([2, 1, 1] : List ℚ) ≠ [1, 1, 1] := by
  constructor
  · norm_num [translate_coordinate_tuple_mut, mutStep, getAt, mulAt]
  · decide

/-- C7 as amended: the translator is applied unconditionally (to every
width-3 row, zero-valued coordinates included) and its returned value is the
pure reversed-and-scaled transform, but it mutates the input batch in place:
after the call each entry of the caller's row has been multiplied by the
corresponding native-order resolution entry, and the returned value is the
reversed view of that mutated storage. -/
theorem c7_translator_mutates (resolution row : List ℚ)
    (hrow : row.length = 3) (hres : resolution.length = 3) :
    ∃ p : List ℚ × List ℚ,
      translate_coordinate_tuple_mut resolution row = some p ∧
      p.1 = List.zipWith (fun x r => x * r) row resolution ∧
      translate_coordinate_tuple resolution row = some p.2 ∧
      p.2 = p.1.reverse := by
  obtain ⟨x0, x1, x2, rfl⟩ := List.length_eq_three.mp hrow
  obtain ⟨r0, r1, r2, rfl⟩ := List.length_eq_three.mp hres
  exact ⟨([x0 * r0, x1 * r1, x2 * r2], [x2 * r2, x1 * r1, x0 * r0]), rfl, rfl, rfl, rfl⟩

theorem c7_translator_mutates_witness :
    ∃ p : List ℚ × List ℚ,
      translate_coordinate_tuple_mut [2, 3, 5] [1, 10, 100] = some p ∧
      p.1 = List.zipWith (fun x r => x * r) [1, 10, 100] [2, 3, 5] ∧
      translate_coordinate_tuple [2, 3, 5] [1, 10, 100] = some p.2 ∧
      p.2 = p.1.reverse :=
  c7_translator_mutates [2, 3, 5] [1, 10, 100] (by decide) (by decide)

/-- C8 counterexample: a width mismatch between the coordinate batch and the
resolution vector does NOT make the translator fail. With a width-4 batch
row and a length-3 resolution the call succeeds and silently scales only the
first three entries of the reversed row, leaving the fourth unscaled. -/
theorem c8_counterexample :
    ([1, 1, 1, 1] : List ℚ).length ≠ ([2, 3, 5] : List ℚ).length ∧
    translate_coordinate_tuple [2, 3, 5] [1, 1, 1, 1] = some [5, 3, 2, 1] := by
  constructor
  · decide
  · norm_num [translate_coordinate_tuple, translate_rev, translateStep, getAt, mulAt]

/-- C8 as amended: the translator performs no width check at all. Its loop is
hard-coded to the first three axes: whenever both the row width and the
resolution length are at least 3 it succeeds — mismatch or not — scaling
exactly the first three entries of the reversed row by the first three
entries of the reversed resolution and leaving any further entries
untouched; it fails (with an index error, not a contract check) exactly when
the row width or the resolution length is below 3. -/
theorem c8_no_width_check (resolution row : List ℚ) :
    (3 ≤ row.length → 3 ≤ resolution.length →
      translate_coordinate_tuple resolution row =
        some (scale3 resolution.reverse row.reverse)) ∧
    ((row.length < 3 ∨ resolution.length < 3) →
      translate_coordinate_tuple resolution row = none) := by
  constructor
  · intro hrow hres
    obtain ⟨y0, y1, y2, yrest, hy⟩ := exists_three_cons row.reverse (by simpa using hrow)
    obtain ⟨u0, u1, u2, urest, hu⟩ :=
      exists_three_cons resolution.reverse (by simpa using hres)
    rw [translate_coordinate_tuple, hy, hu, translate_rev_cons3]
    rfl
  · intro h
    rw [translate_coordinate_tuple]
    exact translate_rev_short _ _ (by simpa using h)

theorem c8_no_width_check_witness :
    translate_coordinate_tuple [2, 3, 5] [10, 10, 10, 10] =
      some (scale3 ([2, 3, 5] : List ℚ).reverse ([10, 10, 10, 10] : List ℚ).reverse) ∧
    translate_coordinate_tuple [2, 3] [1, 1, 1] = none :=
  ⟨(c8_no_width_check [2, 3, 5] [10, 10, 10, 10]).1 (by decide) (by decide),
   (c8_no_width_check [2, 3] [1, 1, 1]).2 (Or.inr (by decide))⟩

theorem row2d_labelOf (resolution : List ℚ) (p : RegionProps2D) :
    labelOf (row2d resolution p) = p.label := rfl

theorem n5_row_labelOf (resolution anchor r : List ℚ) (out : List ℚ)
    (hr : r ≠ []) (h : n5_row resolution anchor r = some out) :
    labelOf out = labelOf r := by
  unfold n5_row at h
  rcases h1 : translate_coordinate_tuple resolution anchor with _ | anch <;> rw [h1] at h
  · exact absurd h (by simp)
  rcases h2 : translate_coordinate_tuple resolution ((r.drop 5).take 3) with _ | minc <;>
    rw [h2] at h
  · exact absurd h (by simp)
  rcases h3 : translate_coordinate_tuple resolution ((r.drop 8).take 3) with _ | maxc <;>
    rw [h3] at h
  · exact absurd h (by simp)
  simp only [Option.some.injEq] at h
  subst h
  rcases r with _ | ⟨a, rest⟩
  · exact absurd rfl hr
  · rfl

theorem compute_table_2d_spec (resolution : List ℚ) (props : List RegionProps2D)
    (t : DTable) (h : _compute_table_2d resolution props = some t) :
    t.cols = col_names_2d ∧ t.rows = props.map (row2d resolution) := by
  unfold _compute_table_2d at h
  split at h
  · split at h
    · exact absurd h (by simp)
    · rename_i row rows heq
      split at h
      · simp only [Option.some.injEq] at h
        subst h
        exact ⟨rfl, heq.symm⟩
      · exact absurd h (by simp)
  · exact absurd h (by simp)

theorem n5_to_pandas_none_spec (resolution : List ℚ) (attributes : List (List ℚ))
    (t : DTable) (h : _n5_to_pandas resolution attributes none = some t) :
    ∃ rows, mapOption (fun r => n5_row resolution (merged_anchor r none) r) attributes =
        some rows ∧
      t = remove_background_label_row ⟨col_names_3d, rows⟩ := by
  unfold _n5_to_pandas at h
  rcases hm : mapOption (fun r => n5_row resolution (merged_anchor r none) r) attributes
      with _ | rows <;> rw [hm] at h
  · exact absurd h (by simp)
  · simp only [Option.some.injEq] at h
    exact ⟨rows, rfl, h.symm⟩

theorem compute_table_3d_spec (resolution : List ℚ) (ca s : Bool)
    (attributes : List (List ℚ)) (mj : Nat) (t : DTable)
    (h : _compute_table_3d resolution ca s attributes mj = Except.ok t) :
    _n5_to_pandas resolution attributes none = some t := by
  unfold _compute_table_3d at h
  split at h
  · exact absurd h (by simp)
  · split at h
    · exact absurd h (by simp)
    · split at h
      · rename_i t' heq
        simp only [Except.ok.injEq] at h
        rw [heq, h]
      · exact absurd h (by simp)

/-- C3: invariants of the final table. For every input on either path —
assuming the collaborator contracts that the region-property list and the
raw attribute store hold one record per label (pairwise distinct labels,
nonempty rows; skimage regionprops never reports the background label) — the
table left after `_remove_empty_columns` has pairwise distinct label ids
(every non-background label appears at most once), no row whose n_pixels
entry equals exactly 0, and no background (label 0) row. -/
theorem c3_final_table_invariants (ndim : Nat) (resolution : List ℚ)
    (props : List RegionProps2D) (attributes : List (List ℚ))
    (correct_anchors workflowOk : Bool) (max_jobs : Nat) (tab : DTable)
    (hprops₁ : props.Pairwise (fun p q => p.label ≠ q.label))
    (hprops₂ : ∀ p ∈ props, p.label ≠ 0)
    (hattrs₁ : attributes.Pairwise (fun a b => labelOf a ≠ labelOf b))
    (hattrs₂ : ∀ r ∈ attributes, r ≠ [])
    (h : extract_table ndim resolution props attributes correct_anchors workflowOk
      max_jobs = Except.ok tab) :
    (_remove_empty_columns tab).rows.Pairwise (fun a b => labelOf a ≠ labelOf b) ∧
    (∀ r ∈ (_remove_empty_columns tab).rows,
      r.getD ((_remove_empty_columns tab).cols.findIdx (fun c => c == "n_pixels")) 0 ≠ 0) ∧
    (∀ r ∈ (_remove_empty_columns tab).rows, labelOf r ≠ 0) := by
  have key : tab.rows.Pairwise (fun a b => labelOf a ≠ labelOf b) ∧
      ∀ r ∈ tab.rows, labelOf r ≠ 0 := by
    unfold extract_table at h
    by_cases hnd : ndim = 2
    · rw [if_pos hnd] at h
      split at h
      · rename_i t h2
        simp only [Except.ok.injEq] at h
        subst h
        obtain ⟨-, hrows⟩ := compute_table_2d_spec resolution props t h2
        rw [hrows]
        constructor
        · exact List.Pairwise.map (row2d resolution)
            (fun p q hpq => by
              rw [row2d_labelOf, row2d_labelOf]; exact hpq) hprops₁
        · intro r hr
          obtain ⟨p, hp, rfl⟩ := List.mem_map.mp hr
          rw [row2d_labelOf]
          exact hprops₂ p hp
      · exact absurd h (by simp)
    · rw [if_neg hnd] at h
      have hn5 := compute_table_3d_spec resolution correct_anchors workflowOk
        attributes max_jobs tab h
      obtain ⟨rows, hmap, htab⟩ := n5_to_pandas_none_spec resolution attributes tab hn5
      have hforall := mapOption_eq_some hmap
      have hmapeq : rows.map labelOf = attributes.map labelOf :=
        forall₂_map_eq hforall
          (fun a ha b hb => n5_row_labelOf resolution (merged_anchor a none) a b
            (hattrs₂ a ha) hb)
      have hpw_rows : rows.Pairwise (fun a b => labelOf a ≠ labelOf b) := by
        have := List.pairwise_map.mpr hattrs₁
        rw [← hmapeq] at this
        exact List.pairwise_map.mp this
      have hidx : col_names_3d.findIdx (fun c => c == "label_id") = 0 := rfl
      have hrows : tab.rows = rows.filter
          (fun r => decide (r.getD 0 0 ≠ 0)) := by
        rw [htab]
        simp [remove_background_label_row, hidx]
      rw [hrows]
      constructor
      · exact List.Pairwise.sublist (List.filter_sublist rows) hpw_rows
      · intro r hr
        have := (List.mem_filter.mp hr).2
        simpa [labelOf] using of_decide_eq_true this
  refine ⟨?_, ?_, ?_⟩
  · exact List.Pairwise.sublist (List.filter_sublist tab.rows) key.1
  · intro r hr
    have := (List.mem_filter.mp hr).2
    exact of_decide_eq_true this
  · intro r hr
    exact key.2 r (List.mem_filter.mp hr).1

theorem c3_final_table_invariants_witness :
    (_remove_empty_columns (DTable.mk col_names_2d
        [[1, 0, 0, 0, 0, 4, 4, 16]])).rows.Pairwise
      (fun a b => labelOf a ≠ labelOf b) ∧
    (∀ r ∈ (_remove_empty_columns (DTable.mk col_names_2d
        [[1, 0, 0, 0, 0, 4, 4, 16]])).rows,
      r.getD ((_remove_empty_columns (DTable.mk col_names_2d
        [[1, 0, 0, 0, 0, 4, 4, 16]])).cols.findIdx (fun c => c == "n_pixels")) 0 ≠ 0) ∧
    (∀ r ∈ (_remove_empty_columns (DTable.mk col_names_2d
        [[1, 0, 0, 0, 0, 4, 4, 16]])).rows, labelOf r ≠ 0) :=
  c3_final_table_invariants 2 [1, 1] [⟨1, [0, 0], [0, 0, 4, 4], 16⟩] [] false true 4
    (DTable.mk col_names_2d [[1, 0, 0, 0, 0, 4, 4, 16]])
    (by simp) (by norm_num) (by simp) (by simp)
    (by norm_num [extract_table, _compute_table_2d, row2d, col_names_2d])
